import Mathlib

/-!
Shallow embedding of `src/plugin.ts` (typedoc-plugin-toc-group).

The plugin has two phases:
* the Tag Indexer (`onBegin` + `onBeginResolve`), which scans every
  reflection's comment tags and builds the per-build aggregate record
  (`groupedData`, `deprecatedData`, `mapedTocData`, `homePath`, the stored
  grouping regexp and the `sortOrder` table), and
* the Tree Regrouper (`onBeginRendererPage` + `buildGroupTocContent`),
  which replaces a page's top-level toc children with synthesized group
  nodes.

Modelling notes, each justified against the source:
* Strings are Lean `String`s, manipulated through their `List Char` data so
  that everything reduces in the kernel.
* `new RegExp("@(" + groupTags.join("|") + ")")` is an UNANCHORED pattern.
  Its `test` on a probe string succeeds iff `"@" ++ t` occurs as a substring
  of the probe for some configured tag name `t`.  Tag names are modelled as
  literal strings (no regex metacharacters), which covers the built-ins and
  ordinary user-supplied names.
* `DEPRECATED_REGEXP = /^@deprecated$/` is anchored, so its `test` on
  `"@" ++ tagName` is exact equality of `tagName` with `"deprecated"`.
* JavaScript objects used as string-keyed maps (`mapedTocData`, the
  `sortOrder` table) are modelled as insertion-ordered association lists;
  this matches `Object.keys` order for the non-integer-like keys the plugin
  handles.  The JS `Set` `deprecatedData` is a deduplicating ordered list.
* typedoc collaborators are modelled from the spec: a navigation node has a
  title, a link target, an optional back-reference to its reflection and a
  parent back-pointer (modelled as the owning group title).  Children built
  by the external tree builder always carry a reflection (they are created
  through `NavigationItem.create`); the group roots synthesized by
  `buildGroupTocContent` are created with `new NavigationItem(key, homePath)`
  and therefore carry NO reflection.
* `Array.prototype.sort` invokes its comparator at least once whenever the
  array has two or more elements, and the plugin's comparator dereferences
  `a.reflection.kindString`; on a group root without a reflection this is a
  TypeError.  `sortGroups` returns `Except.error ()` in that case (in the
  build this aborts the page's regrouping before the child list is
  replaced).  When every element does carry a reflection the comparator is
  total and the sort is stable (ES2019), modelled by a stable insertion
  sort on the comparator's rank.
* In-place mutation (`item.deprecated = true`, `item.parent = root`,
  `page.toc.children = updatedToc`, the lazy `Others` insertion into the
  shared index) is modelled by explicit state passing: the regrouper returns
  the updated index together with a `RegroupResult` describing what happened
  to the page's top-level child list.
-/

namespace TocGroup

/-- Annotation tag of a symbol comment: a name and a free-text body
(`tag.tagName`, `tag.text` in the source). -/
structure Tag where
  tagName : String
  text : String
deriving DecidableEq, Repr

/-- Symbol record (typedoc `Reflection`), restricted to the attributes the
plugin reads: `name`, `kind` (probed by the regrouper's kind filter),
`kindString` (read by the sort comparator) and the optional comment tag
list.  `tags = none` models `!comment || !comment.tags`.  The upstream
library stores `kind` as a number; it is modelled as a string here, which is
the reading under which the spec's kind-name claims have their best chance. -/
structure Reflection where
  name : String
  kind : String
  kindString : String
  tags : Option (List Tag)
deriving DecidableEq, Repr

/-- Does the pattern match at the front of the string? -/
def matchFront : List Char → List Char → Bool
  | [], _ => true
  | _ :: _, [] => false
  | a :: p, b :: s => a == b && matchFront p s

/-- Does the pattern occur anywhere in the string?  This is the semantics of
an unanchored literal regular-expression `test`. -/
def occursIn (p : List Char) : List Char → Bool
  | [] => matchFront p []
  | b :: s => matchFront p (b :: s) || occursIn p s

/-- Semantics of `this.regexp.test("@" + tag.tagName)` (plugin.ts line 85)
for the pattern `@(t1|t2|...)` built in `onBegin` (line 52). -/
def regexpTestTag (groupTags : List String) (tagName : String) : Bool :=
  groupTags.any fun t => occursIn ('@' :: t.data) ('@' :: tagName.data)

/-- Semantics of `regexp.test("@!" + item.reflection.kind)` (plugin.ts
line 141), the negative-kind probe used by the regrouper's child filter. -/
def regexpTestKind (groupTags : List String) (kind : String) : Bool :=
  groupTags.any fun t => occursIn ('@' :: t.data) ('@' :: '!' :: kind.data)

/-- Semantics of `DEPRECATED_REGEXP.test("@" + tag.tagName)` (line 83): the
pattern `/^@deprecated$/` is anchored on both sides, hence exact equality. -/
def isDeprecatedTag (tagName : String) : Bool :=
  tagName == "deprecated"

/-- Built-in grouping tag names (`this.defaultTags`, plugin.ts line 23). -/
def defaultTags : List String := ["group", "kind", "platform"]

/-- Splitting a string on the comma character, as `String.prototype.split(',')`
does: the empty string yields `[""]`. -/
def splitCommaAux : List Char → List Char → List (List Char)
  | acc, [] => [acc.reverse]
  | acc, c :: rest =>
    if c == ',' then acc.reverse :: splitCommaAux [] rest
    else splitCommaAux (c :: acc) rest

/-- String-level wrapper for `splitCommaAux`. -/
def splitComma (s : String) : List String :=
  (splitCommaAux [] s.data).map fun l => ⟨l⟩

/-- Configured grouping-tag names (plugin.ts lines 50-51):
`defaultTags.concat(userTags).filter(item => item.length)` where
`userTags = (options.getValue(PLUGIN_NAME) || '').split(',')`. -/
def computeGroupTags (userOption : Option String) : List String :=
  (defaultTags ++ splitComma (userOption.getD "")).filter fun t => t.length != 0

/-- ASCII lower-casing of one character (`String.prototype.toLowerCase` on
the ASCII range the plugin's kind strings live in). -/
def lowerChar (c : Char) : Char :=
  if 'A' ≤ c && c ≤ 'Z' then Char.ofNat (c.toNat + 32) else c

/-- ASCII lower-casing of a string. -/
def lowerStr (s : String) : String :=
  ⟨s.data.map lowerChar⟩

/-- Update-or-append for the `sortOrder` association table
(`acc[item.toLowerCase()] = idx`). -/
def setRank : List (String × Nat) → String → Nat → List (String × Nat)
  | [], k, v => [(k, v)]
  | (k', v') :: rest, k, v =>
    if k' == k then (k', v) :: rest else (k', v') :: setRank rest k v

/-- The `sortOrder` table built in `onBegin` (plugin.ts lines 53-57): each
configured kind name, lower-cased, maps to its 0-based position; a duplicate
name keeps the later position. -/
def buildSortOrder (kinds : List String) : List (String × Nat) :=
  kinds.enum.foldl (fun acc p => setRank acc (lowerStr p.2) p.1) []

/-- Rank lookup with the `|| 0` default of `compareKind` (plugin.ts
lines 61-62); a stored rank of 0 is also falsy in JS and likewise yields 0. -/
def lookupRank (so : List (String × Nat)) (k : String) : Nat :=
  match so.find? fun p => p.1 == k with
  | some p => p.2
  | none => 0

/-- The comparator body `compareKind` (plugin.ts lines 60-64). -/
def compareKind (so : List (String × Nat)) (a b : String) : Int :=
  (lookupRank so (lowerStr a) : Int) - (lookupRank so (lowerStr b) : Int)

/-- The aggregate record attached to `context.project[PLUGIN_NAME]`
(plugin.ts line 96).  `groupTags` stands for the stored compiled `regexp`. -/
structure GroupIndex where
  groupedData : List String
  deprecatedData : List String
  mapedTocData : List (String × List String)
  homePath : String
  groupTags : List String
  sortOrder : List (String × Nat)
deriving DecidableEq, Repr

/-- JS `Set.prototype.add`: append if not already present. -/
def setAdd (s : List String) (x : String) : List String :=
  if s.contains x then s else s ++ [x]

/-- `if (!mapedTocData[groupKey]) mapedTocData[groupKey] = [];
mapedTocData[groupKey].push(ref.name)` (plugin.ts lines 88-89): push onto the
key's list, creating the list (at the end of the key order) if absent. -/
def appendToKey : List (String × List String) → String → String → List (String × List String)
  | [], k, v => [(k, [v])]
  | (k', l) :: rest, k, v =>
    if k' == k then (k', l ++ [v]) :: rest
    else (k', l) :: appendToKey rest k v

/-- First line of a tag body: `tag.text.split(/\r\n?|\n/)[0]` (plugin.ts
line 87) is everything before the first CR or LF; an empty body yields the
empty string. -/
def firstLineAux : List Char → List Char
  | [] => []
  | c :: rest => if c == '\r' || c == '\n' then [] else c :: firstLineAux rest

/-- String-level wrapper for `firstLineAux`. -/
def firstLine (s : String) : String :=
  ⟨firstLineAux s.data⟩

/-- The deprecation half of one tag-loop iteration (plugin.ts line 83):
`if (DEPRECATED_REGEXP.test(...)) deprecatedData.add(ref.name)`. -/
def applyDeprecated (name : String) (tag : Tag) (idx : GroupIndex) : GroupIndex :=
  if isDeprecatedTag tag.tagName then
    { idx with deprecatedData := setAdd idx.deprecatedData name }
  else idx

/-- The tag loop of `onBeginResolve` (plugin.ts lines 82-91) for one symbol:
each tag is first checked against the deprecation pattern (adding the name to
the `deprecatedData` set, without stopping), then against the grouping
pattern; on a grouping match the name is pushed onto `groupedData` and onto
the group-key's list, and the loop `break`s. -/
def scanTagList (gt : List String) (name : String) : List Tag → GroupIndex → GroupIndex
  | [], idx => idx
  | tag :: rest, idx =>
    if regexpTestTag gt tag.tagName then
      { applyDeprecated name tag idx with
        groupedData := (applyDeprecated name tag idx).groupedData ++ [name],
        mapedTocData := appendToKey (applyDeprecated name tag idx).mapedTocData
          (firstLine tag.text) name }
    else scanTagList gt name rest (applyDeprecated name tag idx)

/-- One reflection of the `for (const key in reflections)` loop: reflections
without a comment tag list are skipped (plugin.ts line 80). -/
def scanReflection (gt : List String) (idx : GroupIndex) (r : Reflection) : GroupIndex :=
  match r.tags with
  | none => idx
  | some ts => scanTagList gt r.name ts idx

/-- The whole `onBeginResolve` scan (plugin.ts lines 67-96): fold the tag
scan over all reflections, starting from the empty aggregate, and store the
configuration values alongside.  `homePath` is the resolved home link path
(configured value or the per-project default). -/
def onBeginResolve (gt : List String) (so : List (String × Nat)) (homePath : String)
    (refs : List Reflection) : GroupIndex :=
  refs.foldl (scanReflection gt)
    { groupedData := [], deprecatedData := [], mapedTocData := [],
      homePath := homePath, groupTags := gt, sortOrder := so }

/-- Navigation-tree child of the default tree handed in by the external
tree builder.  Children are created by `NavigationItem.create`, hence always
carry a reflection.  `parent` is the back-pointer, modelled as the title of
the owning group once repointed. -/
structure TocChild where
  title : String
  refl : Reflection
  deprecated : Bool
  parent : Option String
deriving DecidableEq, Repr

/-- A synthesized top-level group node: `new NavigationItem(key, homePath)`
plus `root.groupTitle = key` and the filtered `children` (plugin.ts
lines 137-151).  The plain constructor never sets a reflection. -/
structure GroupRoot where
  title : String
  url : String
  groupTitle : String
  reflection : Option Reflection
  children : List TocChild
deriving DecidableEq, Repr

/-- Body of the child filter callback (plugin.ts lines 139-150): drop the
child if the negative-kind probe matches; otherwise flag it deprecated when
its title is in the deprecated set, and keep it (repointing its parent to
the group) exactly when its title is in the group's member list. -/
def regroupChild (gt dep gv : List String) (key : String) (c : TocChild) : Option TocChild :=
  if regexpTestKind gt c.refl.kind then none
  else
    let c1 := if dep.contains c.title then { c with deprecated := true } else c
    if gv.contains c1.title then some { c1 with parent := some key } else none

/-- The filtered child list of one group node
(`page.toc.children.filter(...)`, plugin.ts line 139). -/
def groupChildren (gt dep gv : List String) (key : String) (toc : List TocChild) : List TocChild :=
  toc.filterMap (regroupChild gt dep gv key)

/-- Fixed label of the synthetic catch-all group (plugin.ts line 13). -/
def DEFAULT_UNGROUPED_NAME : String := "Others"

/-- Key lookup in the insertion-ordered map. -/
def lookupGroup : List (String × List String) → String → Option (List String)
  | [], _ => none
  | (k, l) :: rest, key => if k == key then some l else lookupGroup rest key

/-- The lazy `Others` computation (plugin.ts lines 126-134): when the
`Others` key is absent (a present key always holds a non-empty list, so
presence coincides with JS truthiness), collect the titles of the top-level
children whose title is not in `groupedData`, and insert that list under
`Others` only when it is non-empty. -/
def computeOthers (toc : List TocChild) (idx : GroupIndex) : GroupIndex :=
  if (lookupGroup idx.mapedTocData DEFAULT_UNGROUPED_NAME).isSome then idx
  else if ((toc.filter fun c => !(idx.groupedData.contains c.title)).map fun c => c.title).isEmpty then idx
  else
    { idx with
      mapedTocData := idx.mapedTocData ++
        [(DEFAULT_UNGROUPED_NAME,
          (toc.filter fun c => !(idx.groupedData.contains c.title)).map fun c => c.title)] }

/-- The `Object.keys(mapedTocData).map(...)` step (plugin.ts lines 136-152):
one group root per key, in key order, with the link target `homePath` and
the filtered children. -/
def makeGroups (toc : List TocChild) (idx : GroupIndex) : List GroupRoot :=
  idx.mapedTocData.map fun kv =>
    { title := kv.1, url := idx.homePath, groupTitle := kv.1, reflection := none,
      children := groupChildren idx.groupTags idx.deprecatedData kv.2 kv.1 toc }

/-- Comparator rank of a group root, defined only when the root carries a
reflection; `none` marks the `a.reflection.kindString` dereference that
throws on a reflection-less root. -/
def rankOfRoot (so : List (String × Nat)) (g : GroupRoot) : Nat :=
  match g.reflection with
  | some r => lookupRank so (lowerStr r.kindString)
  | none => 0

/-- Stable insertion of one element into an already-processed run: an
element goes after every earlier element that compares less-or-equal. -/
def insertLe (le : GroupRoot → GroupRoot → Bool) (g : GroupRoot) : List GroupRoot → List GroupRoot
  | [] => [g]
  | h :: t => if le h g then h :: insertLe le g t else g :: h :: t

/-- Stable sort by left-to-right insertion. -/
def stableSort (le : GroupRoot → GroupRoot → Bool) (l : List GroupRoot) : List GroupRoot :=
  l.foldl (fun acc g => insertLe le g acc) []

/-- Outcome of `buildGroupTocContent` for the page's top-level child list:
left unchanged, replaced by the sorted group roots, or aborted by the
TypeError thrown inside the sort comparator. -/
inductive RegroupResult where
  | unchanged
  | failed
  | replaced (groups : List GroupRoot)
deriving DecidableEq, Repr

/-- The `.sort((a, b) => compareKind(sortOrder, a.reflection.kindString,
b.reflection.kindString))` step (plugin.ts lines 153-157).  With fewer than
two elements the comparator is never invoked.  With two or more elements it
is invoked, and every group root built by this plugin lacks a reflection, so
the dereference throws (`Except.error`); the total branch (every root
carrying a reflection) performs the stable ascending sort on ranks. -/
def sortGroups (so : List (String × Nat)) (gs : List GroupRoot) : Except Unit (List GroupRoot) :=
  match gs with
  | [] => Except.ok []
  | [g] => Except.ok [g]
  | _ :: _ :: _ =>
    if gs.all fun g => g.reflection.isSome then
      Except.ok (stableSort (fun a b => Nat.ble (rankOfRoot so a) (rankOfRoot so b)) gs)
    else Except.error ()

/-- The regrouping pass `buildGroupTocContent` (plugin.ts lines 122-162).
Returns the index as left behind by the pass (the lazy `Others` insertion
mutates the shared record even when the later sort throws) together with
what happened to the page's top-level child list.  The guard is
`Object.keys(mapedTocData).length` (the `typeof` check always passes for the
record built by `onBeginResolve`); the final `if (updatedToc &&
updatedToc.length)` keeps the default tree when the group list is empty. -/
def buildGroupTocContent (toc : List TocChild) (idx : GroupIndex) : GroupIndex × RegroupResult :=
  if idx.mapedTocData.isEmpty then (idx, RegroupResult.unchanged)
  else
    match sortGroups (computeOthers toc idx).sortOrder (makeGroups toc (computeOthers toc idx)) with
    | Except.error _ => (computeOthers toc idx, RegroupResult.failed)
    | Except.ok sorted =>
      if sorted.isEmpty then (computeOthers toc idx, RegroupResult.unchanged)
      else (computeOthers toc idx, RegroupResult.replaced sorted)

/-- Shape of `page.model` as far as `onBeginRendererPage` inspects it:
not a `Reflection` instance at all, the `ProjectReflection` root, a
module/namespace container (`kindOf(ReflectionKind.SomeModule)`), or an
ordinary reflection. -/
inductive PageModel where
  | nonReflection
  | project
  | someModule
  | plain (r : Reflection)
deriving DecidableEq, Repr

/-- The page hook `onBeginRendererPage` (plugin.ts lines 103-120).  Only a
model that is not a `Reflection` instance returns early; for every other
model — including the project root and module containers, for which the
upward walk merely produces an empty trail — the default tree is built by
the external `TocPlugin.buildToc` (delegated collaborator, represented by
the `defaultToc` argument) and `buildGroupTocContent` runs on it. -/
def onBeginRendererPage (model : PageModel) (defaultToc : List TocChild)
    (idx : GroupIndex) : GroupIndex × RegroupResult :=
  match model with
  | PageModel.nonReflection => (idx, RegroupResult.unchanged)
  | _ => buildGroupTocContent defaultToc idx

/-- Total number of occurrences of a name across all member lists of the
group map (the multiset size of the name's group memberships). -/
def countName (m : List (String × List String)) (n : String) : Nat :=
  (m.map fun p => p.2.count n).sum

/-! ### Concrete fixtures for counterexamples and witnesses -/

/-- A reflection with no comment tags, of the given name and kind. -/
def reflC (n k : String) : Reflection :=
  { name := n, kind := k, kindString := k, tags := none }

/-- A reflection carrying one `@group` tag with the given body. -/
def reflGrouped (n key : String) : Reflection :=
  { name := n, kind := "class", kindString := "Class",
    tags := some [{ tagName := "group", text := key }] }

/-- A default-tree child with the given title, of kind `class`. -/
def childC (n : String) : TocChild :=
  { title := n, refl := reflC n "class", deprecated := false, parent := none }

/-- A one-group index: `Foo` sits in group `A`. -/
def idxA : GroupIndex :=
  { groupedData := ["Foo"], deprecatedData := [], mapedTocData := [("A", ["Foo"])],
    homePath := "h", groupTags := defaultTags, sortOrder := [] }

/-- A one-group index: `Bar` sits in group `B`. -/
def idxB : GroupIndex :=
  { groupedData := ["Bar"], deprecatedData := [], mapedTocData := [("B", ["Bar"])],
    homePath := "h", groupTags := defaultTags, sortOrder := [] }

/-- A two-group index: `Foo` in group `A`, `Bar` in group `B`, with a
configured kind sort order. -/
def idx3 : GroupIndex :=
  { groupedData := ["Foo", "Bar"], deprecatedData := [],
    mapedTocData := [("A", ["Foo"]), ("B", ["Bar"])],
    homePath := "h", groupTags := defaultTags,
    sortOrder := buildSortOrder ["Interface", "Class"] }

/-- A default-tree child whose underlying reflection's kind is the string
`group` — literally one of the configured grouping-tag names. -/
def childKindGroup : TocChild :=
  { title := "X", refl := reflC "X" "group", deprecated := false, parent := none }

/-- A one-group index: `X` sits in group `A`. -/
def idx5 : GroupIndex :=
  { groupedData := ["X"], deprecatedData := [], mapedTocData := [("A", ["X"])],
    homePath := "h", groupTags := defaultTags, sortOrder := [] }

/-- The index produced by scanning one symbol `Foo` tagged `@group Alpha`. -/
def idxScanFoo : GroupIndex :=
  onBeginResolve defaultTags [] "h" [reflGrouped "Foo" "Alpha"]

/-- An index whose `Others` key came from a grouping tag at indexing time
(`Ax` carries a tag whose body's first line is literally `Others`), plus an
ordinary group `B`. -/
def idxOthers : GroupIndex :=
  onBeginResolve defaultTags [] "h" [reflGrouped "Ax" "Others", reflGrouped "Bx" "B"]

/-- An index with a single tag-produced `Others` group. -/
def idxOthersOnly : GroupIndex :=
  onBeginResolve defaultTags [] "h" [reflGrouped "Ax" "Others"]

/-- A reflection carrying only a `@deprecated` tag. -/
def reflDeprecatedOnly : Reflection :=
  { name := "Qux", kind := "class", kindString := "Class",
    tags := some [{ tagName := "deprecated", text := "" }] }

/-! ### Shared lemmas about the pattern matcher -/

/-- A pattern starting with a character that never occurs in the string
cannot occur in the string. -/
theorem occursIn_eq_false_of_not_mem {c : Char} {p s : List Char} (h : c ∉ s) :
    occursIn (c :: p) s = false := by
  induction s with
  | nil => rfl
  | cons b s ih =>
    have hb : c ≠ b := fun hcb => h (hcb ▸ List.mem_cons_self b s)
    have hs : c ∉ s := fun hcs => h (List.mem_cons_of_mem b hcs)
    simp [occursIn, matchFront, ih hs, hb]

/-- Occurrence of a `c`-headed pattern in a `c`-headed string where `c` does
not recur: the pattern can only match at the front. -/
theorem occursIn_cons_eq_matchFront {c : Char} {p s : List Char} (h : c ∉ s) :
    occursIn (c :: p) (c :: s) = matchFront p s := by
  simp [occursIn, matchFront, occursIn_eq_false_of_not_mem h]

/-! ### Shared lemmas about the aggregate record -/

@[simp]
theorem applyDeprecated_groupedData (name : String) (tag : Tag) (idx : GroupIndex) :
    (applyDeprecated name tag idx).groupedData = idx.groupedData := by
  unfold applyDeprecated
  split <;> rfl

@[simp]
theorem applyDeprecated_mapedTocData (name : String) (tag : Tag) (idx : GroupIndex) :
    (applyDeprecated name tag idx).mapedTocData = idx.mapedTocData := by
  unfold applyDeprecated
  split <;> rfl

@[simp]
theorem applyDeprecated_homePath (name : String) (tag : Tag) (idx : GroupIndex) :
    (applyDeprecated name tag idx).homePath = idx.homePath := by
  unfold applyDeprecated
  split <;> rfl

@[simp]
theorem applyDeprecated_groupTags (name : String) (tag : Tag) (idx : GroupIndex) :
    (applyDeprecated name tag idx).groupTags = idx.groupTags := by
  unfold applyDeprecated
  split <;> rfl

@[simp]
theorem applyDeprecated_sortOrder (name : String) (tag : Tag) (idx : GroupIndex) :
    (applyDeprecated name tag idx).sortOrder = idx.sortOrder := by
  unfold applyDeprecated
  split <;> rfl

/-- Membership in the union of the lists after `appendToKey`: exactly the
old members plus the appended value. -/
theorem exists_mem_appendToKey (m : List (String × List String)) (k v n : String) :
    (∃ p ∈ appendToKey m k v, n ∈ p.2) ↔ (∃ p ∈ m, n ∈ p.2) ∨ n = v := by
  induction m with
  | nil => simp [appendToKey]
  | cons hd tl ih =>
    obtain ⟨k', l⟩ := hd
    cases hk : (k' == k) with
    | true =>
      simp only [appendToKey, hk, if_pos]
      constructor
      · rintro ⟨p, hp, hn⟩
        rcases List.mem_cons.mp hp with rfl | hp
        · rcases List.mem_append.mp hn with hn | hn
          · exact Or.inl ⟨(k', l), List.mem_cons_self _ _, hn⟩
          · exact Or.inr (List.mem_singleton.mp hn)
        · exact Or.inl ⟨p, List.mem_cons_of_mem _ hp, hn⟩
      · rintro (⟨p, hp, hn⟩ | rfl)
        · rcases List.mem_cons.mp hp with rfl | hp
          · exact ⟨(k', l ++ [v]), List.mem_cons_self _ _, List.mem_append.mpr (Or.inl hn)⟩
          · exact ⟨p, List.mem_cons_of_mem _ hp, hn⟩
        · exact ⟨(k', l ++ [n]), List.mem_cons_self _ _,
            List.mem_append.mpr (Or.inr (List.mem_singleton.mpr rfl))⟩
    | false =>
      simp only [appendToKey, hk]
      constructor
      · rintro ⟨p, hp, hn⟩
        rcases List.mem_cons.mp hp with rfl | hp
        · exact Or.inl ⟨(k', l), List.mem_cons_self _ _, hn⟩
        · rcases (ih).mp ⟨p, hp, hn⟩ with h | h
          · rcases h with ⟨q, hq, hqn⟩
            exact Or.inl ⟨q, List.mem_cons_of_mem _ hq, hqn⟩
          · exact Or.inr h
      · rintro (⟨p, hp, hn⟩ | rfl)
        · rcases List.mem_cons.mp hp with rfl | hp
          · exact ⟨(k', l), List.mem_cons_self _ _, hn⟩
          · rcases (ih).mpr (Or.inl ⟨p, hp, hn⟩) with ⟨q, hq, hqn⟩
            exact ⟨q, List.mem_cons_of_mem _ hq, hqn⟩
        · rcases (ih).mpr (Or.inr rfl) with ⟨q, hq, hqn⟩
          exact ⟨q, List.mem_cons_of_mem _ hq, hqn⟩

/-- The tag scan of one symbol preserves the grouped-names/union-of-lists
correspondence. -/
theorem scanTagList_grouped_iff (gt : List String) (name : String) (tags : List Tag) :
    ∀ idx : GroupIndex,
      (∀ n, n ∈ idx.groupedData ↔ ∃ p ∈ idx.mapedTocData, n ∈ p.2) →
      ∀ n, n ∈ (scanTagList gt name tags idx).groupedData ↔
        ∃ p ∈ (scanTagList gt name tags idx).mapedTocData, n ∈ p.2 := by
  induction tags with
  | nil => exact fun idx h => h
  | cons tag rest ih =>
    intro idx h n
    cases hm : regexpTestTag gt tag.tagName with
    | false =>
      simp only [scanTagList, hm, Bool.false_eq_true, if_false]
      exact ih (applyDeprecated name tag idx) (fun n => by simpa using h n) n
    | true =>
      simp only [scanTagList, hm, if_true]
      simp only [applyDeprecated_groupedData, applyDeprecated_mapedTocData,
        List.mem_append, List.mem_singleton, exists_mem_appendToKey]
      rw [h n]

/-- The whole indexing scan preserves the correspondence, starting from the
empty aggregate. -/
theorem onBeginResolve_grouped_iff (gt : List String) (so : List (String × Nat))
    (hp : String) (refs : List Reflection) (n : String) :
    n ∈ (onBeginResolve gt so hp refs).groupedData ↔
      ∃ p ∈ (onBeginResolve gt so hp refs).mapedTocData, n ∈ p.2 := by
  unfold onBeginResolve
  have main : ∀ (rs : List Reflection) (idx : GroupIndex),
      (∀ m, m ∈ idx.groupedData ↔ ∃ p ∈ idx.mapedTocData, m ∈ p.2) →
      ∀ m, m ∈ (rs.foldl (scanReflection gt) idx).groupedData ↔
        ∃ p ∈ (rs.foldl (scanReflection gt) idx).mapedTocData, m ∈ p.2 := by
    intro rs
    induction rs with
    | nil => exact fun idx h => h
    | cons r rest ihr =>
      intro idx h m
      rw [List.foldl_cons]
      refine ihr (scanReflection gt idx r) ?_ m
      unfold scanReflection
      cases r.tags with
      | none => exact h
      | some ts => exact scanTagList_grouped_iff gt r.name ts idx h
  exact main refs _ (by simp) n

/-- A key that `lookupGroup` does not find heads no entry of the map. -/
theorem ne_of_lookupGroup_eq_none {m : List (String × List String)} {key : String}
    (h : lookupGroup m key = none) : ∀ p ∈ m, ¬ p.1 = key := by
  induction m with
  | nil => simp
  | cons hd tl ih =>
    obtain ⟨k, l⟩ := hd
    intro p hpm
    cases hk : (k == key) with
    | true => simp [lookupGroup, hk] at h
    | false =>
      have h' : lookupGroup tl key = none := by
        simpa [lookupGroup, hk] using h
      rcases List.mem_cons.mp hpm with rfl | hpm
      · intro he
        have hke : k = key := he
        rw [hke] at hk
        simp at hk
      · exact ih h' p hpm

/-- First component of the regrouping pass: the index is returned as left by
the (possibly skipped) lazy `Others` computation, whatever happens later. -/
theorem buildGroupTocContent_fst (toc : List TocChild) (idx : GroupIndex) :
    (buildGroupTocContent toc idx).1 =
      if idx.mapedTocData.isEmpty then idx else computeOthers toc idx := by
  unfold buildGroupTocContent
  split
  · rfl
  · split
    · rfl
    · split <;> rfl

/-- The `Others` computation either leaves the map alone or (only when the
key was absent) appends the ungrouped titles under the `Others` key. -/
theorem computeOthers_mapedTocData (toc : List TocChild) (idx : GroupIndex) :
    (computeOthers toc idx).mapedTocData = idx.mapedTocData ∨
      (lookupGroup idx.mapedTocData DEFAULT_UNGROUPED_NAME = none ∧
        (computeOthers toc idx).mapedTocData = idx.mapedTocData ++
          [(DEFAULT_UNGROUPED_NAME,
            (toc.filter fun c => !(idx.groupedData.contains c.title)).map fun c => c.title)]) := by
  unfold computeOthers
  split
  · exact Or.inl rfl
  · split
    · exact Or.inl rfl
    · rename_i h1 _
      exact Or.inr ⟨Option.not_isSome_iff_eq_none.mp h1, rfl⟩

/-! ### Claim C4 -/

/-- Claim C4 (corrected), counterexample: after a page has been processed
and the lazy `Others` group inserted, the union of the member lists in
`mapedTocData` contains `Baz` while `groupedData` does not, so the claimed
equality fails at that point of the build. -/
theorem claim4_cex :
    ((buildGroupTocContent [childC "Foo", childC "Baz"] idxScanFoo).1.mapedTocData.any
        fun p => p.2.contains "Baz") = true ∧
      ((buildGroupTocContent [childC "Foo", childC "Baz"] idxScanFoo).1.groupedData.contains
        "Baz") = false := by
  constructor <;> decide

/-- Claim C4 (amended): the equality `groupedNames = union of the lists in
groupMembership` holds when the Group Index is created by the Indexer (for
every build), and it survives only until the lazy `Others` insertion: every
name the regrouper places into a freshly synthesized `Others` list is, on
the contrary, NOT in `groupedNames`. -/
theorem claim4_thm :
    (∀ (gt : List String) (so : List (String × Nat)) (hp : String)
        (refs : List Reflection) (n : String),
        n ∈ (onBeginResolve gt so hp refs).groupedData ↔
          ∃ p ∈ (onBeginResolve gt so hp refs).mapedTocData, n ∈ p.2) ∧
      (∀ (toc : List TocChild) (idx : GroupIndex),
        lookupGroup idx.mapedTocData DEFAULT_UNGROUPED_NAME = none →
          ∀ p ∈ (buildGroupTocContent toc idx).1.mapedTocData,
            p.1 = DEFAULT_UNGROUPED_NAME → ∀ n ∈ p.2, n ∉ idx.groupedData) := by
  constructor
  · exact onBeginResolve_grouped_iff
  · intro toc idx hO p hp hkey n hn
    rw [buildGroupTocContent_fst] at hp
    cases he : idx.mapedTocData.isEmpty with
    | true =>
      rw [if_pos (by simp [he])] at hp
      exact absurd hkey (ne_of_lookupGroup_eq_none hO p hp)
    | false =>
      rw [if_neg (by simp [he])] at hp
      rcases computeOthers_mapedTocData toc idx with hsame | ⟨_, happ⟩
      · rw [hsame] at hp
        exact absurd hkey (ne_of_lookupGroup_eq_none hO p hp)
      · rw [happ] at hp
        rcases List.mem_append.mp hp with hp | hp
        · exact absurd hkey (ne_of_lookupGroup_eq_none hO p hp)
        · have hpe := List.mem_singleton.mp hp
          rw [hpe] at hn
          rcases List.mem_map.mp hn with ⟨c, hc, hct⟩
          have hcf := List.mem_filter.mp hc
          intro hcon
          rw [← hct] at hcon
          have := List.elem_eq_true_of_mem hcon
          rw [Bool.not_eq_eq_eq_not] at hcf
          simp only [List.contains] at hcf
          rw [this] at hcf
          simp at hcf

/-- Witness for `claim4_thm`: the creation-time equality at the one-symbol
build, and the `Others` part at the page `[Baz]` over the index `idxA`. -/
theorem claim4_wit :
    ("Foo" ∈ idxScanFoo.groupedData ↔ ∃ p ∈ idxScanFoo.mapedTocData, "Foo" ∈ p.2) ∧
      "Baz" ∉ idxA.groupedData :=
  ⟨claim4_thm.1 defaultTags [] "h" [reflGrouped "Foo" "Alpha"] "Foo",
    claim4_thm.2 [childC "Baz"] idxA (by decide) ("Others", ["Baz"]) (by decide) rfl
      "Baz" (by decide)⟩

/-! ### Claim C1 -/

/-- Claim C1 (corrected), counterexample: with the default configuration the
grouping matcher recognizes the tag named `grouping` even though `grouping`
is not equal to any configured grouping-tag name, because the pattern built
in `onBegin` is unanchored and `@group` occurs inside `@grouping`. -/
theorem claim1_cex :
    regexpTestTag (computeGroupTags none) "grouping" = true ∧
      (computeGroupTags none).contains "grouping" = false := by
  constructor <;> decide

/-- Claim C1 (amended): for a tag whose name does not contain the character
`@` (every ordinary doc-comment tag), the grouping matcher recognizes the
tag if and only if SOME configured grouping-tag name (the built-ins `group`,
`kind`, `platform` plus the user-supplied comma-separated names, empty
entries discarded) is a PREFIX of the tag's name; equality is not required,
so a tag name extending a configured name (e.g. `grouping`) is recognized,
while a name merely containing a configured name elsewhere is not. -/
theorem claim1_thm (userOption : Option String) (tagName : String)
    (h : '@' ∉ tagName.data) :
    regexpTestTag (computeGroupTags userOption) tagName = true ↔
      ∃ t ∈ computeGroupTags userOption, matchFront t.data tagName.data = true := by
  unfold regexpTestTag
  rw [List.any_eq_true]
  constructor
  · rintro ⟨t, ht, hp⟩
    exact ⟨t, ht, by rwa [occursIn_cons_eq_matchFront h] at hp⟩
  · rintro ⟨t, ht, hp⟩
    exact ⟨t, ht, by rwa [occursIn_cons_eq_matchFront h]⟩

/-- Witness for `claim1_thm` at the concrete tag name `grouping` with no
user-supplied names. -/
theorem claim1_wit :
    '@' ∉ "grouping".data ∧
      (regexpTestTag (computeGroupTags none) "grouping" = true ↔
        ∃ t ∈ computeGroupTags none, matchFront t.data "grouping".data = true) :=
  ⟨by decide, claim1_thm none "grouping" (by decide)⟩

/-! ### Claim C2 -/

/-- Claim C2 (corrected), counterexample: on a page whose model is the
project root, with a non-empty group index, the regrouper does run and DOES
replace the page's top-level child list with group nodes. -/
theorem claim2_cex :
    (onBeginRendererPage PageModel.project [childC "Foo"] idxA).2 ≠ RegroupResult.unchanged ∧
      (onBeginRendererPage PageModel.project [childC "Foo"] idxA).2 =
        RegroupResult.replaced
          [{ title := "A", url := "h", groupTitle := "A", reflection := none,
             children := [{ childC "Foo" with parent := some "A" }] }] := by
  constructor <;> decide

/-- Claim C2 (amended): the page hook skips its work only when the page's
model is not a reflection at all; a page whose model is the project root is
still processed, and whenever the index holds exactly one group whose
members cover every top-level title, the top-level child list IS replaced by
that single group node. -/
theorem claim2_thm (toc : List TocChild) (idx : GroupIndex) (k : String) (gv : List String)
    (h1 : idx.mapedTocData = [(k, gv)])
    (h2 : ∀ c ∈ toc, idx.groupedData.contains c.title = true) :
    onBeginRendererPage PageModel.project toc idx =
      (idx, RegroupResult.replaced
        [{ title := k, url := idx.homePath, groupTitle := k, reflection := none,
           children := groupChildren idx.groupTags idx.deprecatedData gv k toc }]) := by
  have hf : (toc.filter fun c => !(idx.groupedData.contains c.title)) = [] := by
    rw [List.filter_eq_nil_iff]
    intro c hc
    simp [List.mem_of_elem_eq_true (h2 c hc)]
  have hco : computeOthers toc idx = idx := by
    unfold computeOthers
    by_cases hk : (lookupGroup idx.mapedTocData DEFAULT_UNGROUPED_NAME).isSome
    · rw [if_pos hk]
    · rw [if_neg hk, hf]
      simp
  show buildGroupTocContent toc idx = _
  unfold buildGroupTocContent
  rw [hco]
  simp [h1, makeGroups, sortGroups]

/-- Witness for `claim2_thm`: a concrete project-root page with the
one-group index `idxB`. -/
theorem claim2_wit :
    onBeginRendererPage PageModel.project [childC "Bar"] idxB =
      (idxB, RegroupResult.replaced
        [{ title := "B", url := idxB.homePath, groupTitle := "B", reflection := none,
           children := groupChildren idxB.groupTags idxB.deprecatedData ["Bar"] "B"
             [childC "Bar"] }]) :=
  claim2_thm [childC "Bar"] idxB "B" ["Bar"] rfl (by decide)

/-! ### Claim C3 -/

/-- Claim C3 (code bug): as soon as two group nodes exist, the sort
comparator dereferences `a.reflection.kindString` on synthesized group roots
that carry no reflection, so the comparison throws and the regrouping aborts
instead of ordering the groups by the rank of their first association's
kind.  Concretely, with groups `A` and `B` the pass fails (and the page's
top-level child list is never replaced), even though every group root was
built and each indeed lacks a reflection. -/
theorem claim3_thm :
    buildGroupTocContent [childC "Foo", childC "Bar"] idx3 = (idx3, RegroupResult.failed) ∧
      (makeGroups [childC "Foo", childC "Bar"] idx3).length = 2 ∧
      ((makeGroups [childC "Foo", childC "Bar"] idx3).all fun g => g.reflection == none) = true := by
  refine ⟨?_, ?_, ?_⟩ <;> decide

/-! ### Claim C5 -/

/-- The negative-kind probe `@!kind` can never match the grouping pattern
when no configured name starts with `!` and the kind string contains no `@`:
the mandatory `!` sits between the pattern's `@` and the kind. -/
theorem regexpTestKind_eq_false (gt : List String) (kind : String)
    (h1 : ∀ t ∈ gt, t.data ≠ [] ∧ t.data.head? ≠ some '!')
    (h2 : '@' ∉ kind.data) : regexpTestKind gt kind = false := by
  unfold regexpTestKind
  rw [List.any_eq_false]
  intro t ht
  have hnm : '@' ∉ ('!' :: kind.data) := by
    intro hmem
    rcases List.mem_cons.mp hmem with he | hm
    · exact absurd he (by decide)
    · exact h2 hm
  rw [occursIn_cons_eq_matchFront hnm]
  obtain ⟨hne, hhd⟩ := h1 t ht
  cases hd : t.data with
  | nil => exact absurd hd hne
  | cons a as =>
    have ha : ¬ a = '!' := by
      intro he
      rw [hd, he] at hhd
      simp at hhd
    simp [hd, matchFront, ha]

/-- Claim C5 (corrected), counterexample: with the default configuration, a
top-level child whose reflection kind is literally `group` (a configured
grouping-tag name) is NOT dropped by the negative-kind test and DOES become
a member of its group. -/
theorem claim5_cex :
    defaultTags.contains childKindGroup.refl.kind = true ∧
      regexpTestKind defaultTags childKindGroup.refl.kind = false ∧
      (buildGroupTocContent [childKindGroup] idx5).2 =
        RegroupResult.replaced
          [{ title := "A", url := "h", groupTitle := "A", reflection := none,
             children := [{ childKindGroup with parent := some "A" }] }] := by
  refine ⟨?_, ?_, ?_⟩ <;> decide

/-- Claim C5 (amended): the child filter drops a child only when `@t` occurs
inside the probe `@!kind` for some configured name `t`; since the probe puts
`!` right after `@`, this never happens when no configured name starts with
`!` and the kind string contains no `@` — in particular a child whose kind
merely equals a configured grouping-tag name survives the test and joins a
group exactly as its membership list dictates. -/
theorem claim5_thm (gt dep gv : List String) (key : String) (c : TocChild)
    (h1 : ∀ t ∈ gt, t.data ≠ [] ∧ t.data.head? ≠ some '!')
    (h2 : '@' ∉ c.refl.kind.data) :
    regexpTestKind gt c.refl.kind = false ∧
      (gv.contains c.title = true → (regroupChild gt dep gv key c).isSome = true) := by
  have hk := regexpTestKind_eq_false gt c.refl.kind h1 h2
  refine ⟨hk, fun hgv => ?_⟩
  simp only [regroupChild, hk, Bool.false_eq_true, if_false]
  cases hd : dep.contains c.title <;> simp [hd, List.mem_of_elem_eq_true hgv]

/-- Witness for `claim5_thm`: the default configuration, a child of kind
`class` listed in its group's member list. -/
theorem claim5_wit :
    regexpTestKind defaultTags (childC "Y").refl.kind = false ∧
      ((["Y"] : List String).contains (childC "Y").title = true →
        (regroupChild defaultTags [] ["Y"] "G" (childC "Y")).isSome = true) :=
  claim5_thm defaultTags [] ["Y"] "G" (childC "Y") (by decide) (by decide)

/-! ### Claim C6 -/

/-- The tag scan of one symbol changes the group map exactly as dictated by
the FIRST tag matching the grouping pattern: one append under the key given
by the first line of that tag's body, or no change at all. -/
theorem scanTagList_mapedTocData (gt : List String) (name : String) (tags : List Tag) :
    ∀ idx : GroupIndex,
      (scanTagList gt name tags idx).mapedTocData =
        match tags.find? (fun t => regexpTestTag gt t.tagName) with
        | some tg => appendToKey idx.mapedTocData (firstLine tg.text) name
        | none => idx.mapedTocData := by
  induction tags with
  | nil => intro idx; rfl
  | cons tag rest ih =>
    intro idx
    cases hm : regexpTestTag gt tag.tagName with
    | true =>
      have hf : List.find? (fun t => regexpTestTag gt t.tagName) (tag :: rest) = some tag := by
        simp [List.find?_cons, hm]
      rw [hf]
      simp [scanTagList, hm]
    | false =>
      have hf : List.find? (fun t => regexpTestTag gt t.tagName) (tag :: rest) =
          List.find? (fun t => regexpTestTag gt t.tagName) rest := by
        simp [List.find?_cons, hm]
      rw [hf]
      simp only [scanTagList, hm, Bool.false_eq_true, if_false]
      rw [ih (applyDeprecated name tag idx)]
      cases hf : rest.find? fun t => regexpTestTag gt t.tagName with
      | none => simp
      | some tg => simp

/-- Appending a value under a key adds exactly one occurrence of it to the
map's member lists. -/
theorem countName_appendToKey (m : List (String × List String)) (k v : String) :
    countName (appendToKey m k v) v = countName m v + 1 := by
  induction m with
  | nil => simp [appendToKey, countName]
  | cons hd tl ih =>
    obtain ⟨k', l⟩ := hd
    cases hk : (k' == k) with
    | true =>
      simp only [appendToKey, hk, if_pos, countName, List.map_cons, List.sum_cons,
        List.count_append]
      simp [countName] at ih ⊢
      omega
    | false =>
      simp only [appendToKey, hk, Bool.false_eq_true, if_false, countName, List.map_cons,
        List.sum_cons]
      simp [countName] at ih ⊢
      omega

/-- Claim C6 (confirmed): for every symbol scanned by the Indexer, only the
first tag matching the grouping pattern assigns membership — the group map
gains exactly one occurrence of the symbol's name, appended to the list
keyed by the first line of that tag's body (the empty string for an empty
body), the remaining tags contribute nothing, and with no matching tag the
map is untouched. -/
theorem claim6_thm :
    (∀ (gt : List String) (name : String) (tags : List Tag) (idx : GroupIndex),
        (scanTagList gt name tags idx).mapedTocData =
          match tags.find? (fun t => regexpTestTag gt t.tagName) with
          | some tg => appendToKey idx.mapedTocData (firstLine tg.text) name
          | none => idx.mapedTocData) ∧
      (∀ (gt : List String) (name : String) (tags : List Tag) (idx : GroupIndex) (tg : Tag),
        tags.find? (fun t => regexpTestTag gt t.tagName) = some tg →
          countName (scanTagList gt name tags idx).mapedTocData name =
            countName idx.mapedTocData name + 1) := by
  constructor
  · exact fun gt name tags idx => scanTagList_mapedTocData gt name tags idx
  · intro gt name tags idx tg hf
    rw [scanTagList_mapedTocData gt name tags idx, hf]
    exact countName_appendToKey idx.mapedTocData (firstLine tg.text) name

/-- Witness for `claim6_thm`: the spec's Scenario 3 — `Corge` carries
`@group Gamma` then `@platform web`; the first matching tag wins and the
name is appended exactly once. -/
theorem claim6_wit :
    (([⟨"group", "Gamma"⟩, ⟨"platform", "web"⟩] : List Tag).find?
        (fun t => regexpTestTag defaultTags t.tagName) = some ⟨"group", "Gamma"⟩) ∧
      countName (scanTagList defaultTags "Corge"
          [⟨"group", "Gamma"⟩, ⟨"platform", "web"⟩] idxA).mapedTocData "Corge" =
        countName idxA.mapedTocData "Corge" + 1 :=
  ⟨by decide,
    claim6_thm.2 defaultTags "Corge" [⟨"group", "Gamma"⟩, ⟨"platform", "web"⟩] idxA
      ⟨"group", "Gamma"⟩ (by decide)⟩

/-! ### Claim C7 -/

@[simp]
theorem computeOthers_groupedData (toc : List TocChild) (idx : GroupIndex) :
    (computeOthers toc idx).groupedData = idx.groupedData := by
  unfold computeOthers
  split
  · rfl
  · split <;> rfl

@[simp]
theorem computeOthers_deprecatedData (toc : List TocChild) (idx : GroupIndex) :
    (computeOthers toc idx).deprecatedData = idx.deprecatedData := by
  unfold computeOthers
  split
  · rfl
  · split <;> rfl

@[simp]
theorem computeOthers_homePath (toc : List TocChild) (idx : GroupIndex) :
    (computeOthers toc idx).homePath = idx.homePath := by
  unfold computeOthers
  split
  · rfl
  · split <;> rfl

@[simp]
theorem computeOthers_groupTags (toc : List TocChild) (idx : GroupIndex) :
    (computeOthers toc idx).groupTags = idx.groupTags := by
  unfold computeOthers
  split
  · rfl
  · split <;> rfl

@[simp]
theorem computeOthers_sortOrder (toc : List TocChild) (idx : GroupIndex) :
    (computeOthers toc idx).sortOrder = idx.sortOrder := by
  unfold computeOthers
  split
  · rfl
  · split <;> rfl

/-- Appending an entry under an absent key makes the key found. -/
theorem lookupGroup_append_of_none (m : List (String × List String)) (key : String)
    (l : List String) (h : lookupGroup m key = none) :
    lookupGroup (m ++ [(key, l)]) key = some l := by
  induction m with
  | nil => simp [lookupGroup]
  | cons hd tl ih =>
    obtain ⟨k', l'⟩ := hd
    cases hk : (k' == key) with
    | true => simp [lookupGroup, hk] at h
    | false =>
      have h' : lookupGroup tl key = none := by simpa [lookupGroup, hk] using h
      simpa [lookupGroup, hk] using ih h'

/-- The lazy `Others` computation is idempotent: a second pass over the same
default tree finds either the freshly inserted key or the same empty
leftover set, and changes nothing. -/
theorem computeOthers_idem (toc : List TocChild) (idx : GroupIndex) :
    computeOthers toc (computeOthers toc idx) = computeOthers toc idx := by
  by_cases h1 : (lookupGroup idx.mapedTocData DEFAULT_UNGROUPED_NAME).isSome = true
  · have e1 : computeOthers toc idx = idx := by
      unfold computeOthers
      rw [if_pos h1]
    rw [e1]
    exact e1
  · by_cases h2 : ((toc.filter fun c => !(idx.groupedData.contains c.title)).map
        fun c => c.title).isEmpty = true
    · have e1 : computeOthers toc idx = idx := by
        unfold computeOthers
        rw [if_neg h1, if_pos h2]
      rw [e1]
      exact e1
    · have e1 : computeOthers toc idx =
          { idx with mapedTocData := idx.mapedTocData ++
            [(DEFAULT_UNGROUPED_NAME,
              (toc.filter fun c => !(idx.groupedData.contains c.title)).map fun c => c.title)] } := by
        unfold computeOthers
        rw [if_neg h1, if_neg h2]
      have hz : (lookupGroup (idx.mapedTocData ++
          [(DEFAULT_UNGROUPED_NAME,
            (toc.filter fun c => !(idx.groupedData.contains c.title)).map fun c => c.title)])
          DEFAULT_UNGROUPED_NAME).isSome = true := by
        rw [lookupGroup_append_of_none _ _ _ (Option.not_isSome_iff_eq_none.mp h1)]
        rfl
      rw [e1]
      unfold computeOthers
      rw [if_pos hz]

/-- Claim C7 (confirmed): the regrouper is idempotent — running it a second
time on the same page's default tree, starting from the index state the
first run left behind (no external mutation in between), returns that very
state and the very same outcome for the top-level child list. -/
theorem claim7_thm (toc : List TocChild) (idx : GroupIndex) :
    buildGroupTocContent toc (buildGroupTocContent toc idx).1 = buildGroupTocContent toc idx := by
  cases he : idx.mapedTocData.isEmpty with
  | true =>
    have e0 : buildGroupTocContent toc idx = (idx, RegroupResult.unchanged) := by
      unfold buildGroupTocContent
      rw [if_pos he]
    rw [e0]
    exact e0
  | false =>
    have he' : ¬ idx.mapedTocData.isEmpty = true := by simp [he]
    have hne2 : ¬ (computeOthers toc idx).mapedTocData.isEmpty = true := by
      rcases computeOthers_mapedTocData toc idx with hs | ⟨_, ha⟩
      · rw [hs]
        exact he'
      · rw [ha]
        simp
    have hco := computeOthers_idem toc idx
    cases hr : sortGroups (computeOthers toc idx).sortOrder (makeGroups toc (computeOthers toc idx)) with
    | error e =>
      have e1 : buildGroupTocContent toc idx = (computeOthers toc idx, RegroupResult.failed) := by
        unfold buildGroupTocContent
        rw [if_neg he', hr]
      rw [e1]
      show buildGroupTocContent toc (computeOthers toc idx) = _
      unfold buildGroupTocContent
      rw [if_neg hne2, hco, hr]
    | ok sorted =>
      cases hs : sorted.isEmpty with
      | true =>
        have e1 : buildGroupTocContent toc idx = (computeOthers toc idx, RegroupResult.unchanged) := by
          unfold buildGroupTocContent
          rw [if_neg he', hr]
          simp [hs]
        rw [e1]
        show buildGroupTocContent toc (computeOthers toc idx) = _
        unfold buildGroupTocContent
        rw [if_neg hne2, hco, hr]
        simp [hs]
      | false =>
        have e1 : buildGroupTocContent toc idx =
            (computeOthers toc idx, RegroupResult.replaced sorted) := by
          unfold buildGroupTocContent
          rw [if_neg he', hr]
          simp [hs]
        rw [e1]
        show buildGroupTocContent toc (computeOthers toc idx) = _
        unfold buildGroupTocContent
        rw [if_neg hne2, hco, hr]
        simp [hs]

/-! ### Claim C8 -/

/-- The element just added by `setAdd` is a member. -/
theorem mem_setAdd_self (s : List String) (x : String) : x ∈ setAdd s x := by
  unfold setAdd
  split
  · rename_i h
    exact List.mem_of_elem_eq_true h
  · exact List.mem_append.mpr (Or.inr (List.mem_singleton.mpr rfl))

/-- The deprecation step only ever grows the deprecated set. -/
theorem mem_deprecatedData_applyDeprecated {x : String} (name : String) (tag : Tag)
    (idx : GroupIndex) (h : x ∈ idx.deprecatedData) :
    x ∈ (applyDeprecated name tag idx).deprecatedData := by
  unfold applyDeprecated
  split
  · show x ∈ setAdd idx.deprecatedData name
    unfold setAdd
    split
    · exact h
    · exact List.mem_append.mpr (Or.inl h)
  · exact h

/-- After `appendToKey`, the key's list exists and holds the value. -/
theorem lookupGroup_appendToKey (m : List (String × List String)) (k v : String) :
    ∃ l, lookupGroup (appendToKey m k v) k = some l ∧ v ∈ l := by
  induction m with
  | nil =>
    refine ⟨[v], ?_, List.mem_singleton.mpr rfl⟩
    simp [appendToKey, lookupGroup]
  | cons hd tl ih =>
    obtain ⟨k', l'⟩ := hd
    cases hk : (k' == k) with
    | true =>
      refine ⟨l' ++ [v], ?_, List.mem_append.mpr (Or.inr (List.mem_singleton.mpr rfl))⟩
      simp [appendToKey, lookupGroup, hk]
    | false =>
      obtain ⟨l, hl, hv⟩ := ih
      refine ⟨l, ?_, hv⟩
      simp [appendToKey, lookupGroup, hk, hl]

/-- A child of the default tree that survives the kind probe, is marked
deprecated, and is listed in the group's members, appears in the group's
children flagged deprecated and reparented. -/
theorem mem_groupChildren_of (gt dep gv : List String) (key : String)
    (toc : List TocChild) (c : TocChild) (hc : c ∈ toc)
    (hkind : regexpTestKind gt c.refl.kind = false)
    (hdep : dep.contains c.title = true)
    (hgv : gv.contains c.title = true) :
    ∃ c', c' ∈ groupChildren gt dep gv key toc ∧ c'.title = c.title ∧
      c'.deprecated = true ∧ c'.parent = some key := by
  refine ⟨{ c with deprecated := true, parent := some key }, ?_, rfl, rfl, rfl⟩
  refine List.mem_filterMap.mpr ⟨c, hc, ?_⟩
  simp [regroupChild, hkind, List.mem_of_elem_eq_true hdep, List.mem_of_elem_eq_true hgv]

/-- Claim C8 (confirmed): a deprecation tag adds the symbol's name to the
deprecated set without stopping the tag loop, so a symbol whose tags are
`@deprecated` followed by a grouping tag ends up both deprecated and in that
grouping tag's group, and the regrouper then places the symbol's node in its
group flagged deprecated.  (The hypothesis that `deprecated` itself does not
match the grouping pattern holds for the default configuration.) -/
theorem claim8_thm (gt : List String) (name dtext : String) (g : Tag) (rest : List Tag)
    (idx : GroupIndex)
    (hnd : regexpTestTag gt "deprecated" = false)
    (hg : regexpTestTag gt g.tagName = true) :
    name ∈ (scanTagList gt name (⟨"deprecated", dtext⟩ :: g :: rest) idx).deprecatedData ∧
      (∃ l, lookupGroup
          (scanTagList gt name (⟨"deprecated", dtext⟩ :: g :: rest) idx).mapedTocData
          (firstLine g.text) = some l ∧ name ∈ l) ∧
      (∀ (key : String) (toc : List TocChild) (c : TocChild), c ∈ toc → c.title = name →
        regexpTestKind gt c.refl.kind = false →
        ∀ l, lookupGroup
            (scanTagList gt name (⟨"deprecated", dtext⟩ :: g :: rest) idx).mapedTocData
            (firstLine g.text) = some l →
          ∃ c', c' ∈ groupChildren gt
              (scanTagList gt name (⟨"deprecated", dtext⟩ :: g :: rest) idx).deprecatedData
              l key toc ∧
            c'.title = name ∧ c'.deprecated = true) := by
  have e : scanTagList gt name (⟨"deprecated", dtext⟩ :: g :: rest) idx =
      { applyDeprecated name g (applyDeprecated name ⟨"deprecated", dtext⟩ idx) with
        groupedData :=
          (applyDeprecated name g (applyDeprecated name ⟨"deprecated", dtext⟩ idx)).groupedData
            ++ [name],
        mapedTocData := appendToKey
          (applyDeprecated name g (applyDeprecated name ⟨"deprecated", dtext⟩ idx)).mapedTocData
          (firstLine g.text) name } := by
    show (if regexpTestTag gt "deprecated" = true then _ else _) = _
    rw [if_neg (by simp [hnd])]
    show (if regexpTestTag gt g.tagName = true then _ else _) = _
    rw [if_pos hg]
  have hdep1 : name ∈ (applyDeprecated name ⟨"deprecated", dtext⟩ idx).deprecatedData := by
    unfold applyDeprecated
    rw [if_pos (by rfl)]
    exact mem_setAdd_self idx.deprecatedData name
  have hdep2 : name ∈ (scanTagList gt name (⟨"deprecated", dtext⟩ :: g :: rest) idx).deprecatedData := by
    rw [e]
    exact mem_deprecatedData_applyDeprecated name g _ hdep1
  obtain ⟨l0, hl0, hv0⟩ := lookupGroup_appendToKey
    (applyDeprecated name g (applyDeprecated name ⟨"deprecated", dtext⟩ idx)).mapedTocData
    (firstLine g.text) name
  refine ⟨hdep2, ⟨l0, by rw [e]; exact hl0, hv0⟩, ?_⟩
  intro key toc c hc hct hkind l hl
  have hleq : l = l0 := by
    rw [e] at hl
    rw [hl0] at hl
    exact (Option.some.inj hl).symm
  have hdepc : (scanTagList gt name (⟨"deprecated", dtext⟩ :: g :: rest) idx).deprecatedData.contains c.title = true := by
    rw [hct]
    exact List.elem_eq_true_of_mem hdep2
  have hgvc : l.contains c.title = true := by
    rw [hleq, hct]
    exact List.elem_eq_true_of_mem hv0
  obtain ⟨c', hmem, htitle, hflag, _⟩ :=
    mem_groupChildren_of gt
      (scanTagList gt name (⟨"deprecated", dtext⟩ :: g :: rest) idx).deprecatedData
      l key toc c hc hkind hdepc hgvc
  exact ⟨c', hmem, by rw [htitle, hct], hflag⟩

/-- Witness for `claim8_thm`: the spec's Scenario 2 — `Qux` tagged
`@deprecated` then `@group Beta` is deprecated and lands in group `Beta`,
and the regrouper emits its node flagged deprecated inside that group. -/
theorem claim8_wit :
    "Qux" ∈ (scanTagList defaultTags "Qux"
        [⟨"deprecated", ""⟩, ⟨"group", "Beta"⟩] idxB).deprecatedData ∧
      (∃ c', c' ∈ groupChildren defaultTags
          (scanTagList defaultTags "Qux"
            [⟨"deprecated", ""⟩, ⟨"group", "Beta"⟩] idxB).deprecatedData
          ["Qux"] "Beta" [childC "Qux"] ∧
        c'.title = "Qux" ∧ c'.deprecated = true) := by
  have h := claim8_thm defaultTags "Qux" "" ⟨"group", "Beta"⟩ [] idxB (by decide) (by decide)
  exact ⟨h.1, h.2.2 "Beta" [childC "Qux"] (childC "Qux") (List.mem_singleton.mpr rfl) rfl
    (by decide) ["Qux"] (by decide)⟩

/-! ### Claim C9 -/

/-- When no tag of any reflection matches the grouping pattern, the indexing
scan leaves the group map empty. -/
theorem onBeginResolve_maped_nil (gt : List String) (so : List (String × Nat))
    (hp : String) (refs : List Reflection)
    (h : ∀ r ∈ refs, ∀ t ∈ r.tags.getD [], regexpTestTag gt t.tagName = false) :
    (onBeginResolve gt so hp refs).mapedTocData = [] := by
  unfold onBeginResolve
  have main : ∀ (rs : List Reflection) (idx : GroupIndex),
      (∀ r ∈ rs, ∀ t ∈ r.tags.getD [], regexpTestTag gt t.tagName = false) →
      (rs.foldl (scanReflection gt) idx).mapedTocData = idx.mapedTocData := by
    intro rs
    induction rs with
    | nil => intro idx _; rfl
    | cons r rest ih =>
      intro idx hall
      rw [List.foldl_cons,
        ih (scanReflection gt idx r) (fun r' hr' => hall r' (List.mem_cons_of_mem _ hr'))]
      unfold scanReflection
      cases ht : r.tags with
      | none => rfl
      | some ts =>
        rw [scanTagList_mapedTocData]
        have hfind : ts.find? (fun t => regexpTestTag gt t.tagName) = none := by
          rw [List.find?_eq_none]
          intro t htm
          have := hall r (List.mem_cons_self _ _) t (by rw [ht]; simpa using htm)
          simp [this]
        rw [hfind]
  exact main refs _ h

/-- Claim C9 (confirmed): when the group map is empty — in particular when
no grouping tag matched anywhere in the build — the regrouper performs no
replacement on any page: the index is untouched and the default tree's
top-level child list stays as the tree builder produced it. -/
theorem claim9_thm (gt : List String) (so : List (String × Nat)) (hp : String)
    (refs : List Reflection) (toc : List TocChild)
    (h : ∀ r ∈ refs, ∀ t ∈ r.tags.getD [], regexpTestTag gt t.tagName = false) :
    buildGroupTocContent toc (onBeginResolve gt so hp refs) =
      (onBeginResolve gt so hp refs, RegroupResult.unchanged) := by
  have hm := onBeginResolve_maped_nil gt so hp refs h
  unfold buildGroupTocContent
  rw [if_pos (by rw [hm]; rfl)]

/-- Witness for `claim9_thm`: a build holding one untagged symbol and one
symbol tagged only `@deprecated`; no grouping tag matches and the page tree
is left unchanged. -/
theorem claim9_wit :
    (∀ r ∈ [reflC "Baz" "class", reflDeprecatedOnly],
        ∀ t ∈ r.tags.getD [], regexpTestTag defaultTags t.tagName = false) ∧
      buildGroupTocContent [childC "Baz"]
          (onBeginResolve defaultTags [] "h" [reflC "Baz" "class", reflDeprecatedOnly]) =
        (onBeginResolve defaultTags [] "h" [reflC "Baz" "class", reflDeprecatedOnly],
          RegroupResult.unchanged) :=
  ⟨by decide,
    claim9_thm defaultTags [] "h" [reflC "Baz" "class", reflDeprecatedOnly]
      [childC "Baz"] (by decide)⟩

/-! ### Claim C10 -/

/-- Every group root synthesized by the regrouper lacks a reflection, and
its children come from `groupChildren` over some entry of the group map. -/
theorem mem_makeGroups (toc : List TocChild) (idx : GroupIndex) (g : GroupRoot)
    (h : g ∈ makeGroups toc idx) :
    g.reflection = none ∧ ∃ kv ∈ idx.mapedTocData,
      g.children = groupChildren idx.groupTags idx.deprecatedData kv.2 kv.1 toc := by
  rcases List.mem_map.mp h with ⟨kv, hkv, he⟩
  exact ⟨by rw [← he], kv, hkv, by rw [← he]⟩

/-- Every child of a synthesized group node has a title listed in that
group's member list. -/
theorem title_mem_of_mem_groupChildren {gt dep gv : List String} {key : String}
    {toc : List TocChild} {c' : TocChild} (h : c' ∈ groupChildren gt dep gv key toc) :
    c'.title ∈ gv := by
  rcases List.mem_filterMap.mp h with ⟨a, _, hf⟩
  simp only [regroupChild] at hf
  split at hf
  · exact absurd hf (by simp)
  · split at hf
    · split at hf
      · rename_i hgvc
        rw [← Option.some.inj hf]
        exact List.mem_of_elem_eq_true hgvc
      · exact absurd hf (by simp)
    · split at hf
      · rename_i hgvc
        rw [← Option.some.inj hf]
        exact List.mem_of_elem_eq_true hgvc
      · exact absurd hf (by simp)

/-- A sort that returns normally (so the comparator never ran, the list
having fewer than two reflection-less roots) returns the list unchanged. -/
theorem sortGroups_ok_of_none (so : List (String × Nat)) (gs out : List GroupRoot)
    (hnone : ∀ g ∈ gs, g.reflection = none)
    (h : sortGroups so gs = Except.ok out) : out = gs := by
  match gs, h with
  | [], h => exact (Except.ok.inj h).symm
  | [g], h => exact (Except.ok.inj h).symm
  | a :: b :: t, h =>
    rw [show sortGroups so (a :: b :: t) =
        (if (a :: b :: t).all (fun g => g.reflection.isSome) then
          Except.ok (stableSort (fun x y => Nat.ble (rankOfRoot so x) (rankOfRoot so y))
            (a :: b :: t))
        else Except.error ()) from rfl] at h
    rw [if_neg (by simp [hnone a (List.mem_cons_self _ _)])] at h
    exact absurd h (by simp)

/-- Claim C10 (amended): when some grouping tag already produced the literal
group key `Others` at indexing time, the presence check succeeds on every
page, so the synthetic catch-all computation is skipped and the shared index
is not touched; moreover, on any page where the regrouping completes and
replaces the top level, a child whose title is not in `groupedNames` (the
index satisfying the creation-time invariant) appears in no group of the
transformed tree.  With two or more group keys, however, the sort failure
aborts the pass before the replacement, so the ungrouped children then stay
on the page's top level instead of disappearing. -/
theorem claim10_thm (toc : List TocChild) (idx : GroupIndex) (l : List String)
    (hO : lookupGroup idx.mapedTocData DEFAULT_UNGROUPED_NAME = some l)
    (hinv : ∀ n, n ∈ idx.groupedData ↔ ∃ p ∈ idx.mapedTocData, n ∈ p.2) :
    (buildGroupTocContent toc idx).1 = idx ∧
      ∀ gs, (buildGroupTocContent toc idx).2 = RegroupResult.replaced gs →
        ∀ c ∈ toc, c.title ∉ idx.groupedData →
          ∀ g ∈ gs, c.title ∉ g.children.map (fun x => x.title) := by
  have hco : computeOthers toc idx = idx := by
    unfold computeOthers
    rw [if_pos (by rw [hO]; rfl)]
  have hne : ¬ idx.mapedTocData.isEmpty = true := by
    cases hm : idx.mapedTocData with
    | nil => rw [hm] at hO; exact absurd hO (by simp [lookupGroup])
    | cons a as => simp
  constructor
  · rw [buildGroupTocContent_fst, if_neg hne, hco]
  · intro gs hgs c hc hcg g hgmem hmemtitle
    unfold buildGroupTocContent at hgs
    rw [if_neg hne, hco] at hgs
    cases hr : sortGroups idx.sortOrder (makeGroups toc idx) with
    | error e => rw [hr] at hgs; simp at hgs
    | ok sorted =>
      rw [hr] at hgs
      cases hs : sorted.isEmpty with
      | true => simp [hs] at hgs
      | false =>
        simp only [hs, Bool.false_eq_true, if_false] at hgs
        have hsg : sorted = gs := by
          simpa using hgs
        have hnone : ∀ g' ∈ makeGroups toc idx, g'.reflection = none :=
          fun g' hg' => (mem_makeGroups toc idx g' hg').1
        have hout := sortGroups_ok_of_none idx.sortOrder (makeGroups toc idx) sorted hnone hr
        have hgm : g ∈ makeGroups toc idx := by
          rw [← hout, hsg]
          exact hgmem
        obtain ⟨-, kv, hkv, hch⟩ := mem_makeGroups toc idx g hgm
        rcases List.mem_map.mp hmemtitle with ⟨c', hc', hct⟩
        rw [hch] at hc'
        have : c'.title ∈ kv.2 := title_mem_of_mem_groupChildren hc'
        rw [hct] at this
        exact hcg ((hinv c.title).mpr ⟨kv, hkv, this⟩)

/-- Claim C10 (corrected), counterexample: a build whose tags produced the
group keys `Others` and `B`, and a page with the ungrouped child `U`.  The
presence check does skip the catch-all (the index comes back unchanged), but
the pass then FAILS in the sort, the top-level child list is never replaced,
and `U` does not disappear from the top level as the claim asserts. -/
theorem claim10_cex :
    buildGroupTocContent [childC "Ax", childC "U", childC "Bx"] idxOthers =
        (idxOthers, RegroupResult.failed) ∧
      idxOthers.groupedData.contains "U" = false := by
  constructor <;> decide

/-- Witness for `claim10_thm`: a single tag-produced `Others` group; the
index is returned untouched. -/
theorem claim10_wit :
    (buildGroupTocContent [childC "Ax"] idxOthersOnly).1 = idxOthersOnly :=
  (claim10_thm [childC "Ax"] idxOthersOnly ["Ax"] (by decide)
    (onBeginResolve_grouped_iff defaultTags [] "h" [reflGrouped "Ax" "Others"])).1

end TocGroup
